import Mathlib

/-!
Verification of the version-gated polyfill dispatcher in
`src/msg-polyfill/index.ts` of FogMoe/gcgserver.

The module exports two async stubs `polyfillGameMsg` / `polyfillResponse`
(both of which return `undefined`) and an internal helper `getPolyfillers`
that scans the polyfill registry, keeps every entry whose registered
version is `>=` the caller version, sorts the survivors ascending by
registered version (JavaScript `Array.prototype.sort` with the comparator
`(a, b) => a.version - b.version`, a stable ascending sort), and returns
the instantiated polyfillers in that order.

Protocol versions are JavaScript numbers used as integers; we embed them
as `Int`.  The registry is a JavaScript `Map` from version to polyfiller
constructor: we embed it as an association list `List (Int × α)` in
iteration (insertion) order; the `Map` key-uniqueness invariant appears as
a `Nodup` hypothesis on the keys where a statement needs it.  Payload
buffers are byte sequences, embedded as `List Nat`.
-/

/-- A raw payload buffer: an opaque sequence of bytes. -/
abbrev Buffer := List Nat

/-- The single failure mode of a polyfiller transform (spec §7): the
incoming buffer cannot be parsed for the declared message type.  The
`detail` field lets us state that the error is propagated unchanged. -/
inductive PolyfillError where
  | malformedPayload (detail : String)
deriving DecidableEq

/-- A registered transformation (spec §6 capability contract): a predicate
"do I handle this message identifier" and a transform over the buffer,
which may fail with a `PolyfillError`. -/
structure Polyfiller where
  handles : String → Bool
  transform : Buffer → Except PolyfillError Buffer

/-- The entry list built by `getPolyfillers` before the final `.map`:
the registry entries with version `>=` the caller version, stably sorted
ascending by registered version.  This is the value of the local
`polyfillers` array in `src/msg-polyfill/index.ts` lines 5-11 after the
`sort` call (insertion sort with `<=` on the version is the same stable
ascending sort as JavaScript `sort((a, b) => a.version - b.version)`). -/
def selectEntries {α : Type} (registry : List (Int × α)) (version : Int) :
    List (Int × α) :=
  List.insertionSort (fun a b => a.1 ≤ b.1)
    (registry.filter (fun p => version ≤ p.1))

/-- `getPolyfillers` from `src/msg-polyfill/index.ts` lines 4-13: filter the
registry by `version <= pVersion`, sort ascending by registered version,
return the polyfillers (instantiation `new polyfillerCls()` is pure, so an
entry payload is just a value of type `α`). -/
def getPolyfillers {α : Type} (registry : List (Int × α)) (version : Int) :
    List α :=
  (selectEntries registry version).map Prod.snd

/-- `polyfillGameMsg` from `src/msg-polyfill/index.ts` lines 16-18: the body
is a placeholder that returns `undefined` (embedded as `none`). -/
def polyfillGameMsg (version : Int) (msgTitle : String) (buffer : Buffer) :
    Option Buffer :=
  none

/-- `polyfillResponse` from `src/msg-polyfill/index.ts` lines 20-22: the body
is a bare `return`, i.e. it also returns `undefined` (embedded as `none`). -/
def polyfillResponse (version : Int) (msgTitle : String) (buffer : Buffer) :
    Option Buffer :=
  none

/-- Modelled from the spec: the chain-application step of the "apply inbound
transformation" operation (spec §4.1), which the source stubs do not
implement.  For each selected polyfiller in order: if it handles the
message identifier, replace the buffer with its transform output,
propagating a transform failure immediately (spec §7 aborts the remaining
chain); otherwise pass the buffer through unchanged. -/
def applyChain (ps : List Polyfiller) (msgTitle : String) (buffer : Buffer) :
    Except PolyfillError Buffer :=
  match ps with
  | [] => .ok buffer
  | p :: rest =>
    if p.handles msgTitle then
      match p.transform buffer with
      | .ok b => applyChain rest msgTitle b
      | .error e => .error e
    else applyChain rest msgTitle buffer

/-- Modelled from the spec: the intended behavior of `polyfillGameMsg`
(spec §4.1 "apply inbound transformation"), whose source body is a
placeholder: select the applicable polyfillers for the caller version and
thread the buffer through the chain. -/
def polyfillGameMsgModel (registry : List (Int × Polyfiller)) (version : Int)
    (msgTitle : String) (buffer : Buffer) : Except PolyfillError Buffer :=
  applyChain (getPolyfillers registry version) msgTitle buffer

/-- Modelled from the spec: the intended behavior of `polyfillResponse`
(spec §4.1 "apply outbound transformation"), which mirrors the inbound
operation with the same selection and ordering rules. -/
def polyfillResponseModel (registry : List (Int × Polyfiller)) (version : Int)
    (msgTitle : String) (buffer : Buffer) : Except PolyfillError Buffer :=
  applyChain (getPolyfillers registry version) msgTitle buffer

/-- A two-element payload type for the concrete registry scenarios of the
spec (`PolyfillerA` at version 1, `PolyfillerB` at version 3). -/
inductive ExPoly where
  | A
  | B
deriving DecidableEq

/-! ### Helper lemmas -/

instance instIsTotalVersionLE {α : Type} :
    IsTotal (Int × α) (fun a b => a.1 ≤ b.1) :=
  ⟨fun a b => le_total a.1 b.1⟩

instance instIsTransVersionLE {α : Type} :
    IsTrans (Int × α) (fun a b => a.1 ≤ b.1) :=
  ⟨fun _ _ _ h₁ h₂ => le_trans h₁ h₂⟩

theorem selectEntries_perm_filter {α : Type} (registry : List (Int × α))
    (version : Int) :
    (selectEntries registry version).Perm
      (registry.filter (fun p => version ≤ p.1)) :=
  List.perm_insertionSort _ _

theorem mem_selectEntries {α : Type} {registry : List (Int × α)}
    {version : Int} {e : Int × α} :
    e ∈ selectEntries registry version ↔ e ∈ registry ∧ version ≤ e.1 := by
  rw [(selectEntries_perm_filter registry version).mem_iff, List.mem_filter]
  simp

theorem selectEntries_sorted_le {α : Type} (registry : List (Int × α))
    (version : Int) :
    List.Sorted (fun a b : Int × α => a.1 ≤ b.1)
      (selectEntries registry version) :=
  List.sorted_insertionSort _ _

theorem selectEntries_keys_nodup {α : Type} {registry : List (Int × α)}
    (hnodup : (registry.map Prod.fst).Nodup) (version : Int) :
    ((selectEntries registry version).map Prod.fst).Nodup := by
  have hfilter : (registry.filter (fun p => version ≤ p.1)).Sublist registry :=
    List.filter_sublist _
  have hsub : ((registry.filter (fun p => version ≤ p.1)).map Prod.fst).Sublist
      (registry.map Prod.fst) := hfilter.map _
  exact (((selectEntries_perm_filter registry version).map
    Prod.fst).nodup_iff).mpr (hsub.nodup hnodup)

theorem selectEntries_sorted_lt {α : Type} {registry : List (Int × α)}
    (hnodup : (registry.map Prod.fst).Nodup) (version : Int) :
    List.Sorted (fun a b : Int × α => a.1 < b.1)
      (selectEntries registry version) := by
  have hle := selectEntries_sorted_le registry version
  have hne : List.Pairwise (fun a b : Int × α => a.1 ≠ b.1)
      (selectEntries registry version) := by
    have := selectEntries_keys_nodup hnodup version
    rwa [List.Nodup, List.pairwise_map] at this
  exact (hle.and hne).imp (fun h => lt_of_le_of_ne h.1 h.2)

theorem sublist_of_subset_of_sorted {α : Type} :
    ∀ (l₂ l₁ : List (Int × α)),
      List.Sorted (fun a b : Int × α => a.1 < b.1) l₁ →
      List.Sorted (fun a b : Int × α => a.1 < b.1) l₂ →
      (∀ x ∈ l₁, x ∈ l₂) → l₁.Sublist l₂
  | _, [], _, _, _ => List.nil_sublist _
  | [], x :: _, _, _, hsub =>
    absurd (hsub x (List.mem_cons_self _ _)) (List.not_mem_nil x)
  | y :: ys, x :: xs, h₁, h₂, hsub => by
    have hx : x ∈ y :: ys := hsub x (List.mem_cons_self _ _)
    by_cases hxy : x = y
    · subst hxy
      refine List.Sublist.cons₂ x
        (sublist_of_subset_of_sorted ys xs h₁.of_cons h₂.of_cons ?_)
      intro z hz
      have hzmem : z ∈ x :: ys := hsub z (List.mem_cons_of_mem _ hz)
      have hzx : x.1 < z.1 := List.rel_of_sorted_cons h₁ z hz
      rcases List.mem_cons.mp hzmem with h | h
      · exact absurd (congrArg Prod.fst h) (ne_of_gt hzx)
      · exact h
    · have hxys : x ∈ ys := List.mem_cons.mp hx |>.resolve_left hxy
      have hyx : y.1 < x.1 := List.rel_of_sorted_cons h₂ x hxys
      refine List.Sublist.cons y
        (sublist_of_subset_of_sorted ys (x :: xs) h₁ h₂.of_cons ?_)
      intro z hz
      rcases List.mem_cons.mp hz with h | h
      · exact h ▸ hxys
      · have hxz : x.1 < z.1 := List.rel_of_sorted_cons h₁ z h
        have hzmem : z ∈ y :: ys := hsub z (List.mem_cons_of_mem _ h)
        rcases List.mem_cons.mp hzmem with h' | h'
        · exact absurd (congrArg Prod.fst h')
            (ne_of_gt (lt_trans hyx hxz))
        · exact h'

theorem applyChain_all_unhandled {ps : List Polyfiller} {msgTitle : String}
    (h : ∀ p ∈ ps, p.handles msgTitle = false) (buffer : Buffer) :
    applyChain ps msgTitle buffer = .ok buffer := by
  induction ps with
  | nil => rfl
  | cons p rest ih =>
    have hp : p.handles msgTitle = false := h p (List.mem_cons_self _ _)
    simp only [applyChain, hp, Bool.false_eq_true, if_false]
    exact ih (fun q hq => h q (List.mem_cons_of_mem _ hq))

theorem applyChain_append (l₁ l₂ : List Polyfiller) (msgTitle : String)
    (buffer : Buffer) :
    applyChain (l₁ ++ l₂) msgTitle buffer =
      match applyChain l₁ msgTitle buffer with
      | .ok b => applyChain l₂ msgTitle b
      | .error e => .error e := by
  induction l₁ generalizing buffer with
  | nil => rfl
  | cons p rest ih =>
    simp only [List.cons_append, applyChain]
    by_cases hp : p.handles msgTitle
    · simp only [hp, if_true]
      cases p.transform buffer with
      | ok b => exact ih b
      | error e => rfl
    · simp only [hp, if_false]
      exact ih buffer

/-! ### Claim theorems -/

/-- C1: for every caller version and every registry, `getPolyfillers`
selects exactly the registry entries whose registered version is greater
than or equal to the caller version: an entry is in the selected sequence
iff it is a registry entry with version at or above the caller version. -/
theorem getPolyfillers_selects_exactly_ge {α : Type}
    (registry : List (Int × α)) (version : Int) (e : Int × α) :
    e ∈ selectEntries registry version ↔ e ∈ registry ∧ version ≤ e.1 :=
  mem_selectEntries

/-- C5: for the registry `{v1 : PolyfillerA, v3 : PolyfillerB}`, caller
version 2 selects exactly `[PolyfillerB]`, and caller version 0 selects
exactly `[PolyfillerA, PolyfillerB]` in that order. -/
theorem getPolyfillers_scenario :
    getPolyfillers [((1 : Int), ExPoly.A), (3, ExPoly.B)] 2 = [ExPoly.B] ∧
    getPolyfillers [((1 : Int), ExPoly.A), (3, ExPoly.B)] 0 =
      [ExPoly.A, ExPoly.B] := by
  constructor <;> rfl

/-- C9: both public operations are stubs: for every version, message title
and buffer they return no data (`none`), independently of all arguments. -/
theorem polyfill_stubs_return_none (version : Int) (msgTitle : String)
    (buffer : Buffer) :
    polyfillGameMsg version msgTitle buffer = none ∧
    polyfillResponse version msgTitle buffer = none :=
  ⟨rfl, rfl⟩

/-- C2: for every caller version, the selected sequence is sorted strictly
ascending by registered version (the registry is a `Map`, so its keys are
`Nodup`); consequently, whenever entry `i` has a smaller registered version
than entry `j`, entry `i` occurs strictly before entry `j`. -/
theorem selectEntries_sorted_strictly_ascending {α : Type}
    (registry : List (Int × α)) (version : Int)
    (hnodup : (registry.map Prod.fst).Nodup) :
    List.Sorted (fun a b : Int × α => a.1 < b.1)
      (selectEntries registry version) ∧
    ∀ i j : Fin (selectEntries registry version).length,
      ((selectEntries registry version).get i).1 <
        ((selectEntries registry version).get j).1 → (i : Nat) < (j : Nat) := by
  have hsorted := selectEntries_sorted_lt hnodup version
  refine ⟨hsorted, fun i j hij => ?_⟩
  by_contra hle
  push_neg at hle
  rcases lt_or_eq_of_le hle with h | h
  · have hji : ((selectEntries registry version).get j).1 <
        ((selectEntries registry version).get i).1 :=
      List.pairwise_iff_get.mp hsorted j i h
    exact absurd hij (asymm hji)
  · have : j = i := Fin.ext h
    subst this
    exact lt_irrefl _ hij

/-- Witness for C2 at the concrete registry `{v1 : A, v3 : B}` with caller
version 0. -/
theorem selectEntries_sorted_strictly_ascending_witness :
    List.Sorted (fun a b : Int × ExPoly => a.1 < b.1)
      (selectEntries [((1 : Int), ExPoly.A), (3, ExPoly.B)] 0) ∧
    ∀ i j : Fin (selectEntries [((1 : Int), ExPoly.A), (3, ExPoly.B)] 0).length,
      ((selectEntries [((1 : Int), ExPoly.A), (3, ExPoly.B)] 0).get i).1 <
        ((selectEntries [((1 : Int), ExPoly.A), (3, ExPoly.B)] 0).get j).1 →
        (i : Nat) < (j : Nat) :=
  selectEntries_sorted_strictly_ascending _ 0 (by decide)

/-- C3: a caller version strictly above every registered version selects the
empty sequence (a valid outcome), and a caller version at or below every
registered version selects a sequence whose length is the registry size. -/
theorem getPolyfillers_range_bounds {α : Type} (registry : List (Int × α))
    (C : Int) :
    ((∀ e ∈ registry, e.1 < C) → getPolyfillers registry C = []) ∧
    ((∀ e ∈ registry, C ≤ e.1) →
      (getPolyfillers registry C).length = registry.length) := by
  constructor
  · intro h
    have hfil : registry.filter (fun p => C ≤ p.1) = [] := by
      rw [List.filter_eq_nil_iff]
      intro a ha
      simp only [decide_eq_true_eq, not_le]
      exact h a ha
    unfold getPolyfillers selectEntries
    rw [hfil]
    rfl
  · intro h
    have hfil : registry.filter (fun p => C ≤ p.1) = registry := by
      rw [List.filter_eq_self]
      intro a ha
      exact decide_eq_true (h a ha)
    unfold getPolyfillers
    rw [List.length_map, (selectEntries_perm_filter registry C).length_eq, hfil]

/-- Witness for C3: caller version 5 is above both registered versions and
selects nothing; caller version 0 is below both and selects both. -/
theorem getPolyfillers_range_bounds_witness :
    getPolyfillers [((1 : Int), ExPoly.A), (3, ExPoly.B)] 5 = [] ∧
    (getPolyfillers [((1 : Int), ExPoly.A), (3, ExPoly.B)] 0).length = 2 :=
  ⟨(getPolyfillers_range_bounds _ 5).1 (by decide),
   (getPolyfillers_range_bounds _ 0).2 (by decide)⟩

/-- C4 counterexample: with registry `{v1 : A, v3 : B}` the caller version 3
is at the maximum registered version (1 ≤ 3 and 3 ≤ 3), yet the selection is
the non-empty sequence `[PolyfillerB]` — the code includes the entry whose
version equals the caller version (`version <= pVersion`), so "at or above
the maximum yields the empty set" is false at the maximum itself. -/
theorem getPolyfillers_at_max_counterexample :
    ((1 : Int) ≤ 3 ∧ (3 : Int) ≤ 3) ∧
    getPolyfillers [((1 : Int), ExPoly.A), (3, ExPoly.B)] 3 = [ExPoly.B] ∧
    getPolyfillers [((1 : Int), ExPoly.A), (3, ExPoly.B)] 3 ≠ [] :=
  ⟨by decide, rfl, by decide⟩

/-- C4 amended: a caller version strictly above the maximum registered
version yields the empty sequence, and a caller version strictly below all
registered versions yields the full set of registered transformations (a
permutation of the registry's payloads). -/
theorem getPolyfillers_out_of_range {α : Type} (registry : List (Int × α))
    (C : Int) :
    ((∀ e ∈ registry, e.1 < C) → getPolyfillers registry C = []) ∧
    ((∀ e ∈ registry, C < e.1) →
      (getPolyfillers registry C).Perm (registry.map Prod.snd)) := by
  constructor
  · intro h
    have hfil : registry.filter (fun p => C ≤ p.1) = [] := by
      rw [List.filter_eq_nil_iff]
      intro a ha
      simp only [decide_eq_true_eq, not_le]
      exact h a ha
    unfold getPolyfillers selectEntries
    rw [hfil]
    rfl
  · intro h
    have hfil : registry.filter (fun p => C ≤ p.1) = registry := by
      rw [List.filter_eq_self]
      intro a ha
      exact decide_eq_true (le_of_lt (h a ha))
    unfold getPolyfillers
    have hperm := selectEntries_perm_filter registry C
    rw [hfil] at hperm
    exact hperm.map Prod.snd

/-- Witness for the amended C4: caller version 5 is strictly above both
registered versions and yields nothing; caller version 0 is strictly below
both and yields the full set. -/
theorem getPolyfillers_out_of_range_witness :
    getPolyfillers [((1 : Int), ExPoly.A), (3, ExPoly.B)] 5 = [] ∧
    (getPolyfillers [((1 : Int), ExPoly.A), (3, ExPoly.B)] 0).Perm
      [ExPoly.A, ExPoly.B] :=
  ⟨(getPolyfillers_out_of_range _ 5).1 (by decide),
   (getPolyfillers_out_of_range _ 0).2 (by decide)⟩

/-- A polyfiller that declares no message identifiers (for the C6 witness). -/
def neverPoly : Polyfiller where
  handles := fun _ => false
  transform := fun b => .ok b

/-- C6 (dispatch chain modelled from spec §4.1/§7, the source bodies being
placeholder stubs): when the message identifier is handled by no selected
polyfiller, both dispatch operations succeed without error and the output
buffer is bit-identical to the input buffer. -/
theorem dispatch_unknown_msg_passthrough (registry : List (Int × Polyfiller))
    (version : Int) (msgTitle : String) (buffer : Buffer)
    (h : ∀ p ∈ getPolyfillers registry version, p.handles msgTitle = false) :
    polyfillGameMsgModel registry version msgTitle buffer = .ok buffer ∧
    polyfillResponseModel registry version msgTitle buffer = .ok buffer :=
  ⟨applyChain_all_unhandled h buffer, applyChain_all_unhandled h buffer⟩

/-- Witness for C6 with a registry containing one polyfiller that handles
no message identifier. -/
theorem dispatch_unknown_msg_passthrough_witness :
    polyfillGameMsgModel [((1 : Int), neverPoly)] 0 "ping" [7] = .ok [7] ∧
    polyfillResponseModel [((1 : Int), neverPoly)] 0 "ping" [7] = .ok [7] :=
  dispatch_unknown_msg_passthrough _ 0 "ping" [7] (by decide)

/-- A polyfiller whose transform always fails (for the C7 witness). -/
def badPoly : Polyfiller where
  handles := fun _ => true
  transform := fun _ => .error (.malformedPayload "bad")

/-- C7 (dispatch chain modelled from spec §4.1/§7, the source bodies being
placeholder stubs): if the selected chain splits as `ps₁ ++ p :: ps₂`, the
prefix `ps₁` succeeds producing `b₁`, and `p` handles the message but its
transform fails with error `e`, then both dispatch operations fail with
exactly that error — the remaining chain `ps₂` is aborted and no partial
buffer is returned. -/
theorem dispatch_malformed_propagates (registry : List (Int × Polyfiller))
    (version : Int) (msgTitle : String) (buffer b₁ : Buffer)
    (ps₁ ps₂ : List Polyfiller) (p : Polyfiller) (e : PolyfillError)
    (hsel : getPolyfillers registry version = ps₁ ++ p :: ps₂)
    (hpre : applyChain ps₁ msgTitle buffer = .ok b₁)
    (hh : p.handles msgTitle = true)
    (ht : p.transform b₁ = .error e) :
    polyfillGameMsgModel registry version msgTitle buffer = .error e ∧
    polyfillResponseModel registry version msgTitle buffer = .error e := by
  have key : applyChain (getPolyfillers registry version) msgTitle buffer =
      .error e := by
    rw [hsel, applyChain_append, hpre]
    simp only [applyChain, hh, if_true, ht]
  exact ⟨key, key⟩

/-- Witness for C7 with a registry containing one polyfiller whose transform
fails with a Malformed-Payload error. -/
theorem dispatch_malformed_propagates_witness :
    polyfillGameMsgModel [((1 : Int), badPoly)] 0 "msg" [1, 2] =
      .error (.malformedPayload "bad") ∧
    polyfillResponseModel [((1 : Int), badPoly)] 0 "msg" [1, 2] =
      .error (.malformedPayload "bad") :=
  dispatch_malformed_propagates [((1 : Int), badPoly)] 0 "msg" [1, 2] [1, 2]
    [] [] badPoly (.malformedPayload "bad") rfl rfl rfl rfl

/-- C8: dispatching twice with identical arguments against an unchanged
registry yields identical output, both for the spec-modelled dispatcher and
for the source stub (the embedding is a pure function of its arguments). -/
theorem dispatch_deterministic (registry₁ registry₂ : List (Int × Polyfiller))
    (v₁ v₂ : Int) (t₁ t₂ : String) (b₁ b₂ : Buffer)
    (hreg : registry₁ = registry₂) (hv : v₁ = v₂) (ht : t₁ = t₂)
    (hb : b₁ = b₂) :
    polyfillGameMsgModel registry₁ v₁ t₁ b₁ =
      polyfillGameMsgModel registry₂ v₂ t₂ b₂ ∧
    polyfillGameMsg v₁ t₁ b₁ = polyfillGameMsg v₂ t₂ b₂ := by
  subst hreg
  subst hv
  subst ht
  subst hb
  exact ⟨rfl, rfl⟩

/-- Witness for C8 at concrete arguments. -/
theorem dispatch_deterministic_witness :
    polyfillGameMsgModel [((1 : Int), neverPoly)] 1 "a" [0] =
      polyfillGameMsgModel [((1 : Int), neverPoly)] 1 "a" [0] ∧
    polyfillGameMsg 1 "a" [0] = polyfillGameMsg 1 "a" [0] :=
  dispatch_deterministic [((1 : Int), neverPoly)] [((1 : Int), neverPoly)]
    1 1 "a" "a" [0] [0] rfl rfl rfl rfl

/-- C10: selection is antitone in the caller version: raising the caller
version from `C₁` to `C₂ ≥ C₁` yields a subsequence of the original
selection (no new transformation appears and the survivors keep their
order); the registry is a `Map`, so its keys are `Nodup`. -/
theorem getPolyfillers_antitone {α : Type} (registry : List (Int × α))
    (C₁ C₂ : Int) (hC : C₁ ≤ C₂)
    (hnodup : (registry.map Prod.fst).Nodup) :
    (getPolyfillers registry C₂).Sublist (getPolyfillers registry C₁) := by
  unfold getPolyfillers
  refine List.Sublist.map Prod.snd ?_
  refine sublist_of_subset_of_sorted _ _
    (selectEntries_sorted_lt hnodup C₂) (selectEntries_sorted_lt hnodup C₁) ?_
  intro x hx
  rcases mem_selectEntries.mp hx with ⟨hmem, hle⟩
  exact mem_selectEntries.mpr ⟨hmem, le_trans hC hle⟩

/-- Witness for C10: over `{v1 : A, v3 : B}`, the selection at caller
version 2 is a subsequence of the selection at caller version 0. -/
theorem getPolyfillers_antitone_witness :
    (getPolyfillers [((1 : Int), ExPoly.A), (3, ExPoly.B)] 2).Sublist
      (getPolyfillers [((1 : Int), ExPoly.A), (3, ExPoly.B)] 0) :=
  getPolyfillers_antitone _ 0 2 (by decide) (by decide)
